import Mathlib

/-!
Shallow embedding of the office-schedule Remix application
(routes `_app.schedule.tsx`, `_app.reports.tsx`, the members route and the
app-shell layout route) for verifying its natural-language specification.

Conventions of the embedding:
* timestamps are modelled as proleptic-Gregorian calendar points with
  minute resolution (`DateTime`), matching `parseISO` /
  `differenceInMinutes` from date-fns on whole-minute inputs;
* the Supabase persistence gateway is modelled as in-memory lists of rows;
  filtered selects become `List.filter`, inserts append, deletes filter out;
  the external store is assumed to report no error, so the
  `if (error)` branches of the actions are unreachable in the model;
* `FormData.get` returns `Option String` (`none` models JavaScript `null`);
* zod `safeParse` is modelled field by field: `z.string()` fails exactly on
  a missing value, `z.string().min(1, msg)` also on the empty string.
-/

set_option autoImplicit false

namespace OfficeSchedule

/-- A calendar timestamp at minute resolution, as produced by `parseISO`. -/
structure DateTime where
  year : Nat
  month : Nat
  day : Nat
  hour : Nat
  minute : Nat
deriving DecidableEq

/-- Lexicographic (chronological) strict order on timestamps; this is the
order the persistence gateway uses for the `gte`/`lt` range filters. -/
def dtLtP (a b : DateTime) : Prop :=
  a.year < b.year ∨ (a.year = b.year ∧
    (a.month < b.month ∨ (a.month = b.month ∧
      (a.day < b.day ∨ (a.day = b.day ∧
        (a.hour < b.hour ∨ (a.hour = b.hour ∧ a.minute < b.minute)))))))

instance (a b : DateTime) : Decidable (dtLtP a b) := by
  unfold dtLtP; exact inferInstance

/-- Boolean strict comparison of timestamps. -/
def dtLt (a b : DateTime) : Bool := decide (dtLtP a b)

/-- Boolean non-strict comparison of timestamps. -/
def dtLe (a b : DateTime) : Bool := !(dtLt b a)

/-- Gregorian leap-year test. -/
def isLeap (y : Nat) : Bool := (y % 4 == 0 && y % 100 != 0) || y % 400 == 0

/-- Days in a Gregorian month. -/
def daysInMonth (y m : Nat) : Nat :=
  if m == 2 then (if isLeap y then 29 else 28)
  else if m == 4 || m == 6 || m == 9 || m == 11 then 30
  else 31

/-- Days in year `y` strictly before the first of month `m`. -/
def daysBeforeMonth (y m : Nat) : Nat :=
  (List.range (m - 1)).foldl (fun a i => a + daysInMonth y (i + 1)) 0

/-- Days in the proleptic Gregorian calendar strictly before year `y`
(counting from year 1). -/
def daysBeforeYear (y : Nat) : Nat :=
  365 * (y - 1) + (y - 1) / 4 - (y - 1) / 100 + (y - 1) / 400

/-- A timestamp as an absolute number of minutes, the quantity
`differenceInMinutes` subtracts. -/
def toMinutes (t : DateTime) : Int :=
  (((daysBeforeYear t.year + daysBeforeMonth t.year t.month + (t.day - 1)) * 24
      + t.hour) * 60 + t.minute : Nat)

/-- date-fns `differenceInMinutes b a`: whole minutes from `a` to `b`
(exact on whole-minute timestamps, possibly negative). -/
def differenceInMinutes (b a : DateTime) : Int := toMinutes b - toMinutes a

/-- A `profiles` row. -/
structure Profile where
  id : String
  full_name : String
  email : String
  is_admin : Bool
  created_at : Nat
deriving DecidableEq

/-- One row of the reports select in the reports loader: a `reports` row
joined through `schedules` to the owning profile
(`reports.select("*, schedules (*, profiles (full_name))")`).
`break_time` is the numeric value `Number(report.break_time)`. -/
structure ReportRow where
  id : Nat
  user_id : String
  full_name : String
  actual_start_time : DateTime
  actual_end_time : DateTime
  break_time : Int
  location : String
  actual_description : String
  reflection : String
deriving DecidableEq

/-- The admin check shared by the reports loader and the members route:
fetch `is_admin` of the profile whose id is the current user id and test
`!profile?.is_admin` (an absent user or absent profile fails the check). -/
def isAdmin (profiles : List Profile) (auth : Option String) : Bool :=
  match auth with
  | none => false
  | some uid =>
    match profiles.find? (fun p => p.id == uid) with
    | none => false
    | some p => p.is_admin

/-- Lower bound of the month filter in the reports loader:
the timestamp `"${year}-${month.padStart(2, "0")}-01"`. -/
def monthFilterLo (year month : Nat) : DateTime := ⟨year, month, 1, 0, 0⟩

/-- Upper bound of the month filter in the reports loader: the timestamp
`"${year}-${Number(month) + 1 === 13 ? "01" : pad(Number(month) + 1)}-01"`.
Note the template keeps `year` unchanged in both branches of the ternary. -/
def monthFilterHi (year month : Nat) : DateTime :=
  ⟨year, if month + 1 == 13 then 1 else month + 1, 1, 0, 0⟩

/-- Insert a row into a list that is sorted by `actual_start_time`. -/
def insertByStart (r : ReportRow) : List ReportRow → List ReportRow
  | [] => [r]
  | x :: xs =>
    if dtLe x.actual_start_time r.actual_start_time then
      x :: insertByStart r xs
    else r :: x :: xs

/-- `order("actual_start_time")`: sort rows by start time ascending. -/
def sortByStart (rows : List ReportRow) : List ReportRow :=
  rows.foldr insertByStart []

/-- The reports select of the reports loader: rows with
`actual_start_time` in `[monthFilterLo, monthFilterHi)`, ordered by
`actual_start_time`. -/
def reportsQuery (rows : List ReportRow) (year month : Nat) : List ReportRow :=
  sortByStart (rows.filter (fun r =>
    dtLe (monthFilterLo year month) r.actual_start_time &&
    dtLt r.actual_start_time (monthFilterHi year month)))

/-- The reports loader: throws the access-denied error for a non-admin
caller, otherwise returns the month-filtered report rows. -/
def reportsLoader (profiles : List Profile) (auth : Option String)
    (rows : List ReportRow) (year month : Nat) :
    Except String (List ReportRow) :=
  if isAdmin profiles auth then .ok (reportsQuery rows year month)
  else .error "管理者以外はアクセスできません"

/-- One value of the `reportsByUser` record in the `Reports` component:
a display name, the pushed reports and the running total of work minutes. -/
structure UserGroup where
  userName : String
  reports : List ReportRow
  totalWorkMinutes : Int
deriving DecidableEq

/-- The work-minutes expression of the aggregation pass (reduce body):
`differenceInMinutes(parseISO(end), parseISO(start)) - Number(break_time)`. -/
def aggWorkMinutes (r : ReportRow) : Int :=
  differenceInMinutes r.actual_end_time r.actual_start_time - r.break_time

/-- The work-minutes expression of the per-row rendering pass
(inside `reports?.map`), written out separately because the source
computes it a second time at that site. -/
def rowWorkMinutes (r : ReportRow) : Int :=
  differenceInMinutes r.actual_end_time r.actual_start_time - r.break_time

/-- One reduce step of `reportsByUser`: under key `uid`, create the entry
`{userName, reports: [], totalWorkMinutes: 0}` if absent, then push the
report and add its work minutes. New string keys are appended in insertion
order, as JavaScript object keys are. -/
def updateGroup : List (String × UserGroup) → String → String → ReportRow →
    List (String × UserGroup)
  | [], uid, name, r => [(uid, ⟨name, [r], 0 + aggWorkMinutes r⟩)]
  | (k, g) :: rest, uid, name, r =>
    if k == uid then
      (k, ⟨g.userName, g.reports ++ [r], g.totalWorkMinutes + aggWorkMinutes r⟩) :: rest
    else (k, g) :: updateGroup rest uid name r

/-- `reports?.reduce(...)` of the `Reports` component: group the fetched
rows by `report.schedules.user_id`, accumulating the display name, the
report list and the total work minutes of each user. -/
def reportsByUser (rows : List ReportRow) : List (String × UserGroup) :=
  rows.foldl (fun acc r => updateGroup acc r.user_id r.full_name r) []

/-- A form submission: `formData.get(key)` for every key any route reads;
`none` models the JavaScript `null` of an absent field. -/
structure FormData where
  intent : Option String := none
  schedule_id : Option String := none
  start_time : Option String := none
  end_time : Option String := none
  location : Option String := none
  description : Option String := none
  actual_start_time : Option String := none
  actual_end_time : Option String := none
  break_time : Option String := none
  actual_description : Option String := none
  reflection : Option String := none
  email : Option String := none
  full_name : Option String := none
  user_id : Option String := none
deriving DecidableEq

/-- `z.string()`: the issue list for one field — a missing value is an
invalid-type issue, any present string passes. -/
def zString : Option String → List String
  | none => ["Expected string, received null"]
  | some _ => []

/-- `z.string().min(1, msg)`: additionally rejects the empty string with
the custom message. -/
def zStringMin1 (msg : String) : Option String → List String
  | none => ["Expected string, received null"]
  | some s => if s.length == 0 then [msg] else []

/-- Models `z.string().email(msg)`: an RFC-shape check of the address.
The precise regex varies with the zod version; no claim here depends on
its fine structure, only on the fact that a shape check happens. -/
def emailShapeOk (s : String) : Bool :=
  match s.splitOn "@" with
  | [lp, dp] =>
    !lp.isEmpty && !dp.isEmpty && dp.contains '.' &&
      !(dp.startsWith ".") && !(dp.endsWith ".")
  | _ => false

/-- `z.string().email(msg)` as an issue list. -/
def zStringEmail (msg : String) : Option String → List String
  | none => ["Expected string, received null"]
  | some s => if emailShapeOk s then [] else [msg]

/-- The typed payload of `scheduleSchema`. -/
structure SchedulePayload where
  start_time : String
  end_time : String
  location : String
  description : String
deriving DecidableEq

/-- `result.error.flatten().fieldErrors` of `scheduleSchema`. -/
structure ScheduleErrors where
  start_time : List String
  end_time : List String
  location : List String
  description : List String
deriving DecidableEq

/-- All issues of `scheduleSchema.safeParse` on the four form fields. -/
def scheduleIssues (f : FormData) : ScheduleErrors :=
  ⟨zString f.start_time, zString f.end_time,
    zStringMin1 "場所を入力してください" f.location,
    zStringMin1 "業務内容を入力してください" f.description⟩

/-- Whether a `scheduleSchema` parse produced no issue. -/
def ScheduleErrors.clean (e : ScheduleErrors) : Bool :=
  e.start_time.isEmpty && e.end_time.isEmpty &&
    e.location.isEmpty && e.description.isEmpty

/-- `scheduleSchema.safeParse` on the submitted form fields. -/
def parseScheduleForm (f : FormData) :
    Except ScheduleErrors SchedulePayload :=
  let e := scheduleIssues f
  if e.clean then
    .ok ⟨f.start_time.getD "", f.end_time.getD "",
      f.location.getD "", f.description.getD ""⟩
  else .error e

/-- The typed payload of `reportSchema`. Note `break_time` is a plain
string in the schema. -/
structure ReportPayload where
  actual_start_time : String
  actual_end_time : String
  break_time : String
  actual_description : String
  reflection : String
deriving DecidableEq

/-- `result.error.flatten().fieldErrors` of `reportSchema`. -/
structure ReportErrors where
  actual_start_time : List String
  actual_end_time : List String
  break_time : List String
  actual_description : List String
  reflection : List String
deriving DecidableEq

/-- All issues of `reportSchema.safeParse` on the five form fields. -/
def reportIssues (f : FormData) : ReportErrors :=
  ⟨zString f.actual_start_time, zString f.actual_end_time,
    zString f.break_time,
    zStringMin1 "業務内容を入力してください" f.actual_description,
    zStringMin1 "振り返りを入力してください" f.reflection⟩

/-- Whether a `reportSchema` parse produced no issue. -/
def ReportErrors.clean (e : ReportErrors) : Bool :=
  e.actual_start_time.isEmpty && e.actual_end_time.isEmpty &&
    e.break_time.isEmpty && e.actual_description.isEmpty &&
    e.reflection.isEmpty

/-- `reportSchema.safeParse` on the submitted form fields. -/
def parseReportForm (f : FormData) : Except ReportErrors ReportPayload :=
  let e := reportIssues f
  if e.clean then
    .ok ⟨f.actual_start_time.getD "", f.actual_end_time.getD "",
      f.break_time.getD "", f.actual_description.getD "",
      f.reflection.getD ""⟩
  else .error e

/-- The typed payload of `inviteSchema`. -/
structure InvitePayload where
  email : String
  full_name : String
deriving DecidableEq

/-- `result.error.flatten().fieldErrors` of `inviteSchema`. -/
structure InviteErrors where
  email : List String
  full_name : List String
deriving DecidableEq

/-- All issues of `inviteSchema.safeParse` on the two form fields. -/
def inviteIssues (f : FormData) : InviteErrors :=
  ⟨zStringEmail "有効なメールアドレスを入力してください" f.email,
    zStringMin1 "名前を入力してください" f.full_name⟩

/-- Whether an `inviteSchema` parse produced no issue. -/
def InviteErrors.clean (e : InviteErrors) : Bool :=
  e.email.isEmpty && e.full_name.isEmpty

/-- `inviteSchema.safeParse` on the submitted form fields. -/
def parseInviteForm (f : FormData) : Except InviteErrors InvitePayload :=
  let e := inviteIssues f
  if e.clean then .ok ⟨f.email.getD "", f.full_name.getD ""⟩
  else .error e

/-- A `schedules` row as inserted by the schedule action:
`{user_id: user?.id, ...result.data}`. -/
structure Schedule where
  user_id : Option String
  start_time : String
  end_time : String
  location : String
  description : String
deriving DecidableEq

/-- A `reports` row as inserted by the schedule action:
`{schedule_id: scheduleId, ...result.data}`. -/
structure StoredReport where
  schedule_id : Option String
  actual_start_time : String
  actual_end_time : String
  break_time : String
  actual_description : String
  reflection : String
deriving DecidableEq

/-- The three collections of the persistence gateway. -/
structure DB where
  profiles : List Profile
  schedules : List Schedule
  reports : List StoredReport
deriving DecidableEq

/-- The result value (`json(...)`) of the schedule action. -/
inductive ScheduleResult where
  | scheduleErrors (e : ScheduleErrors)
  | reportErrors (e : ReportErrors)
  | success
deriving DecidableEq

/-- The schedule-route action. For intent `"create"` it validates
`scheduleSchema` and inserts a schedule owned by the current user; for
intent `"report"` it validates `reportSchema` and inserts a report for the
submitted `schedule_id`; any other intent falls through to
`json({ success: true })`. Validation failure returns the flattened field
errors before any insert. The store is assumed to accept the insert, so
the `if (error)` branch does not arise in the model. -/
def scheduleAction (db : DB) (auth : Option String) (f : FormData) :
    DB × ScheduleResult :=
  if f.intent == some "create" then
    match parseScheduleForm f with
    | .error e => (db, .scheduleErrors e)
    | .ok p =>
      ({ db with schedules := db.schedules ++
          [⟨auth, p.start_time, p.end_time, p.location, p.description⟩] },
        .success)
  else if f.intent == some "report" then
    match parseReportForm f with
    | .error e => (db, .reportErrors e)
    | .ok p =>
      ({ db with reports := db.reports ++
          [⟨f.schedule_id, p.actual_start_time, p.actual_end_time,
            p.break_time, p.actual_description, p.reflection⟩] },
        .success)
  else (db, .success)

/-- An outward call the members action can make. -/
inductive Effect where
  | signInWithOtp (email : String) (full_name : String)
deriving DecidableEq

/-- The result value (`json(...)`) of the members action. -/
inductive MembersResult where
  | adminError (msg : String)
  | inviteErrors (e : InviteErrors)
  | success
deriving DecidableEq

/-- The members-route action. It first re-checks the admin flag and
answers a plain error for a non-admin caller. For intent `"invite"` it
validates `inviteSchema` and triggers the external OTP invitation; for
intent `"delete"` it deletes the profile rows whose id equals the
submitted `user_id`; any other intent falls through to
`json({ success: true })`. The external OTP call and the delete are
assumed to succeed, so the error branches do not arise in the model. -/
def membersAction (db : DB) (auth : Option String) (f : FormData) :
    DB × List Effect × MembersResult :=
  if !(isAdmin db.profiles auth) then
    (db, [], .adminError "管理者以外は実行できません")
  else if f.intent == some "invite" then
    match parseInviteForm f with
    | .error e => (db, [], .inviteErrors e)
    | .ok p => (db, [.signInWithOtp p.email p.full_name], .success)
  else if f.intent == some "delete" then
    match f.user_id with
    | none => (db, [], .success)
    | some uid =>
      ({ db with profiles := db.profiles.filter (fun p => !(p.id == uid)) },
        [], .success)
  else (db, [], .success)

/-- Insert a profile into a list sorted by `created_at`. -/
def insertProfile (p : Profile) : List Profile → List Profile
  | [] => [p]
  | q :: qs =>
    if q.created_at ≤ p.created_at then q :: insertProfile p qs
    else p :: q :: qs

/-- `order("created_at")` over the profiles select. -/
def sortProfiles (ps : List Profile) : List Profile :=
  ps.foldr insertProfile []

/-- The members loader: throws the access-denied error for a non-admin
caller, otherwise returns all profiles ordered by creation time. -/
def membersLoader (profiles : List Profile) (auth : Option String) :
    Except String (List Profile) :=
  if isAdmin profiles auth then .ok (sortProfiles profiles)
  else .error "管理者以外はアクセスできません"

/-- The result of the app-shell layout loader: either the redirect to the
login page or the rendered page data `{user, isAdmin: profile?.is_admin}`.
There is no error constructor — the loader never throws. -/
inductive ShellResult where
  | redirect (dest : String)
  | page (userId : String) (isAdminFlag : Option Bool)
deriving DecidableEq

/-- The app-shell layout loader: with no session it returns
`redirect("/login")`; with a session it looks up the profile of the
session user and exposes its `is_admin` flag (absent profile gives an
absent flag, not an error). -/
def shellLoader (profiles : List Profile) (session : Option String) :
    ShellResult :=
  match session with
  | none => .redirect "/login"
  | some uid =>
    .page uid ((profiles.find? (fun p => p.id == uid)).map Profile.is_admin)

/-! Concrete fixtures used by example theorems and witnesses. -/

/-- A report started on 2024-12-15, inside the December month the spec
expects the `year=2024, month=12` query to cover. -/
def decReport2024 : ReportRow :=
  ⟨1, "u1", "Yamada", ⟨2024, 12, 15, 9, 0⟩, ⟨2024, 12, 15, 17, 0⟩, 60,
    "office", "work", "done"⟩

/-- The first example report of the spec: 09:00-17:00 with a 60 minute
break. -/
def exReport1 : ReportRow :=
  ⟨1, "u1", "Yamada", ⟨2024, 5, 1, 9, 0⟩, ⟨2024, 5, 1, 17, 0⟩, 60,
    "office", "work", "done"⟩

/-- The second example report of the spec: 10:00-12:30 with no break. -/
def exReport2 : ReportRow :=
  ⟨2, "u1", "Yamada", ⟨2024, 5, 2, 10, 0⟩, ⟨2024, 5, 2, 12, 30⟩, 0,
    "office", "work", "done"⟩

/-- A report whose break exceeds its elapsed time: 10:00-10:30 with a
60 minute break. -/
def exReportNeg : ReportRow :=
  ⟨3, "u1", "Yamada", ⟨2024, 5, 3, 10, 0⟩, ⟨2024, 5, 3, 10, 30⟩, 60,
    "office", "work", "done"⟩

/-- A valid report submission for schedule "s1". -/
def reportFormS1 : FormData :=
  { intent := some "report", schedule_id := some "s1",
    actual_start_time := some "09:00", actual_end_time := some "17:00",
    break_time := some "0", actual_description := some "desk work",
    reflection := some "fine" }

/-- The payload `reportSchema` produces from `reportFormS1`. -/
def reportPayloadS1 : ReportPayload :=
  ⟨"09:00", "17:00", "0", "desk work", "fine"⟩

/-- A store that already holds a report for schedule "s1". -/
def dbWithReportS1 : DB :=
  ⟨[⟨"u1", "Yamada", "y@example.jp", false, 0⟩], [],
    [⟨some "s1", "08:00", "12:00", "30", "earlier", "ok"⟩]⟩

/-- A report submission whose break_time is the negative string "-15". -/
def negativeBreakForm : FormData :=
  { intent := some "report", schedule_id := some "s1",
    actual_start_time := some "09:00", actual_end_time := some "17:00",
    break_time := some "-15", actual_description := some "desk work",
    reflection := some "fine" }

/-- The payload `reportSchema` accepts for `negativeBreakForm`. -/
def negativeBreakPayload : ReportPayload :=
  ⟨"09:00", "17:00", "-15", "desk work", "fine"⟩

/-- A profile carrying the admin flag. -/
def adminProfile : Profile := ⟨"a", "Admin", "admin@example.jp", true, 0⟩

/-- A schedule-creation submission with every field absent. -/
def badCreateForm : FormData := { intent := some "create" }

/-- The field errors `scheduleSchema` reports for `badCreateForm`. -/
def badCreateErrors : ScheduleErrors :=
  ⟨["Expected string, received null"], ["Expected string, received null"],
    ["Expected string, received null"], ["Expected string, received null"]⟩

/-- A report submission whose actual_description is empty. -/
def badReportForm : FormData :=
  { intent := some "report", schedule_id := some "s1",
    actual_start_time := some "09:00", actual_end_time := some "17:00",
    break_time := some "0", actual_description := some "",
    reflection := some "fine" }

/-- The field errors `reportSchema` reports for `badReportForm`. -/
def badReportErrors : ReportErrors :=
  ⟨[], [], [], ["業務内容を入力してください"], []⟩

/-- An ordinary member profile. -/
def memberU2 : Profile := ⟨"u2", "Suzuki", "s@example.jp", false, 5⟩

/-- A store holding the admin, a member, one schedule and one report of
that member. -/
def dbWithMemberU2 : DB :=
  ⟨[adminProfile, memberU2],
    [⟨some "u2", "2024-05-01T09:00", "2024-05-01T17:00", "office", "work"⟩],
    [⟨some "s1", "09:00", "17:00", "60", "work", "done"⟩]⟩

/-- A members submission deleting the profile "u2". -/
def deleteFormU2 : FormData :=
  { intent := some "delete", user_id := some "u2" }

/-- A submission whose intent matches no write operation. -/
def bogusIntentForm : FormData := { intent := some "noop" }

end OfficeSchedule

namespace OfficeSchedule

/-- The range predicate of the December reports query is unsatisfiable:
the upper bound keeps the same year. -/
theorem december_filter_pred_false (y : Nat) (t : DateTime) :
    (dtLe (monthFilterLo y 12) t && dtLt t (monthFilterHi y 12)) = false := by
  by_contra hne
  have htrue : (dtLe (monthFilterLo y 12) t &&
      dtLt t (monthFilterHi y 12)) = true := by
    revert hne
    cases dtLe (monthFilterLo y 12) t && dtLt t (monthFilterHi y 12) <;> simp
  rw [Bool.and_eq_true] at htrue
  obtain ⟨hlo, hhi⟩ := htrue
  simp only [dtLe, dtLt, Bool.not_eq_true', decide_eq_false_iff_not,
    decide_eq_true_eq] at hlo hhi
  simp only [monthFilterLo, monthFilterHi, dtLtP] at hlo hhi
  simp only [Nat.reduceAdd, Nat.reduceBEq, if_true] at hhi
  omega

/-- **C1.** The claim asks that the reports query for `month=12` select
exactly the reports with `actual_start_time` in `[Y-12-01, (Y+1)-01-01)`.
The code instead builds the upper bound with the unchanged year, so the
December window is `[Y-12-01, Y-01-01)`, which is empty: for every row
list and every year the December query returns no report, and in
particular the 2024-12-15 report — which lies inside the interval the
claim (and the spec test `year=2024, month=12`) requires — is not
selected. -/
theorem c1_december_query_always_empty :
    (∀ (rows : List ReportRow) (year : Nat), reportsQuery rows year 12 = []) ∧
    reportsQuery [decReport2024] 2024 12 = [] ∧
    dtLe ⟨2024, 12, 1, 0, 0⟩ decReport2024.actual_start_time = true ∧
    dtLt decReport2024.actual_start_time ⟨2025, 1, 1, 0, 0⟩ = true := by
  have hmain : ∀ (rows : List ReportRow) (year : Nat),
      reportsQuery rows year 12 = [] := by
    intro rows year
    unfold reportsQuery
    have hfil : rows.filter (fun r =>
        dtLe (monthFilterLo year 12) r.actual_start_time &&
        dtLt r.actual_start_time (monthFilterHi year 12)) = [] := by
      rw [List.filter_eq_nil_iff]
      intro r _
      rw [december_filter_pred_false year r.actual_start_time]
      simp
    rw [hfil]
    rfl
  exact ⟨hmain, hmain [decReport2024] 2024, by decide, by decide⟩

/-- **C2.** Worked minutes per report are
`differenceInMinutes(actual_end_time, actual_start_time) - break_time`
with no clamping (the 10:00-10:30 report with a 60 minute break yields
-30), and the per-user total is the sum of these values: the spec
examples give 420 and 150 minutes and an aggregated total of 570 for
their common user. -/
theorem c2_worked_minutes_and_total :
    aggWorkMinutes exReport1 = 420 ∧
    aggWorkMinutes exReport2 = 150 ∧
    reportsByUser [exReport1, exReport2] =
      [("u1", ⟨"Yamada", [exReport1, exReport2], 570⟩)] ∧
    aggWorkMinutes exReportNeg = -30 := by
  refine ⟨by decide, by decide, by decide, by decide⟩

/-- **C3.** A report submission with a schema-valid payload is inserted
for the submitted `schedule_id` whatever the current store and caller
are: there is no check that the schedule belongs to the caller, that its
end time has passed, or that no report exists yet — and when a report for
that schedule already exists, the insert still happens, leaving at least
two reports for the schedule. -/
theorem c3_report_inserted_without_guards (db : DB) (auth : Option String)
    (f : FormData) (p : ReportPayload)
    (hintent : f.intent = some "report")
    (hparse : parseReportForm f = .ok p) :
    scheduleAction db auth f =
      ({ db with reports := db.reports ++
          [⟨f.schedule_id, p.actual_start_time, p.actual_end_time,
            p.break_time, p.actual_description, p.reflection⟩] },
        .success) ∧
    (1 ≤ (db.reports.filter
        (fun q => q.schedule_id == f.schedule_id)).length →
      2 ≤ ((scheduleAction db auth f).1.reports.filter
          (fun q => q.schedule_id == f.schedule_id)).length) := by
  have hact : scheduleAction db auth f =
      ({ db with reports := db.reports ++
          [⟨f.schedule_id, p.actual_start_time, p.actual_end_time,
            p.break_time, p.actual_description, p.reflection⟩] },
        .success) := by
    simp [scheduleAction, hintent, hparse]
  refine ⟨hact, fun hone => ?_⟩
  rw [hact]
  rw [List.filter_append, List.length_append]
  have hnew : (List.filter
      (fun q : StoredReport => q.schedule_id == f.schedule_id)
      [⟨f.schedule_id, p.actual_start_time, p.actual_end_time,
        p.break_time, p.actual_description, p.reflection⟩]).length = 1 := by
    simp
  omega

/-- Witness for C3: with a store already holding a report for schedule
"s1", the valid submission for "s1" is inserted and two reports for "s1"
remain. -/
theorem c3_report_inserted_without_guards_witness :
    scheduleAction dbWithReportS1 (some "u1") reportFormS1 =
      ({ dbWithReportS1 with reports := dbWithReportS1.reports ++
          [⟨reportFormS1.schedule_id, reportPayloadS1.actual_start_time,
            reportPayloadS1.actual_end_time, reportPayloadS1.break_time,
            reportPayloadS1.actual_description,
            reportPayloadS1.reflection⟩] },
        .success) ∧
    2 ≤ ((scheduleAction dbWithReportS1 (some "u1") reportFormS1).1.reports.filter
        (fun q => q.schedule_id == reportFormS1.schedule_id)).length := by
  have h := c3_report_inserted_without_guards dbWithReportS1 (some "u1")
    reportFormS1 reportPayloadS1 rfl rfl
  exact ⟨h.1, h.2 (by decide)⟩

/-- **C4 counterexample.** The claim says report validation rejects any
`break_time` that is not a non-negative integer; but `reportSchema` types
`break_time` as a plain string, so the submission with
`break_time = "-15"` is accepted and its payload carries "-15". -/
theorem c4_counterexample_negative_break_accepted :
    parseReportForm negativeBreakForm = .ok negativeBreakPayload ∧
    negativeBreakPayload.break_time = "-15" := by
  exact ⟨rfl, rfl⟩

/-- **C4 (amended).** Report validation only requires `break_time` to be
present as a string: substituting any string for the submitted
`break_time` never changes whether validation accepts, and an accepted
payload carries the submitted `break_time` verbatim — non-negativity and
integrality are not checked server-side (only the client number input has
`min=0`). -/
theorem c4_break_time_not_validated (f : FormData) (b : String)
    (p : ReportPayload) (hparse : parseReportForm f = .ok p) :
    (parseReportForm { f with break_time := some b }).isOk =
      (parseReportForm { f with break_time := some "0" }).isOk ∧
    f.break_time = some p.break_time := by
  constructor
  · have hiss : reportIssues { f with break_time := some b } =
        reportIssues { f with break_time := some "0" } := by
      simp [reportIssues, zString]
    simp only [parseReportForm]
    rw [hiss]
    by_cases hc : (reportIssues { f with break_time := some "0" }).clean <;>
      simp [hc, Except.isOk, Except.toBool]
  · simp only [parseReportForm] at hparse
    by_cases hc : (reportIssues f).clean
    · simp only [hc, if_true] at hparse
      cases hbt : f.break_time with
      | none =>
        exfalso
        simp [reportIssues, ReportErrors.clean, zString, hbt] at hc
      | some s =>
        rw [Except.ok.injEq] at hparse
        rw [← hparse, hbt]
        rfl
    · simp [hc] at hparse

/-- Witness for C4 (amended): discharged on the valid "s1" submission. -/
theorem c4_break_time_not_validated_witness :
    (parseReportForm { reportFormS1 with break_time := some "-15" }).isOk =
      (parseReportForm { reportFormS1 with break_time := some "0" }).isOk ∧
    reportFormS1.break_time = some reportPayloadS1.break_time :=
  c4_break_time_not_validated reportFormS1 "-15" reportPayloadS1 rfl

/-- Membership is preserved by sorted insertion of a profile. -/
theorem mem_insertProfile (p q : Profile) (l : List Profile) :
    q ∈ insertProfile p l ↔ q = p ∨ q ∈ l := by
  induction l with
  | nil => simp [insertProfile]
  | cons x xs ih =>
    simp only [insertProfile]
    split
    · rw [List.mem_cons, ih, List.mem_cons]
      tauto
    · simp only [List.mem_cons]

/-- Sorting the profiles by creation time preserves membership. -/
theorem mem_sortProfiles (ps : List Profile) (q : Profile) :
    q ∈ sortProfiles ps ↔ q ∈ ps := by
  induction ps with
  | nil => simp [sortProfiles]
  | cons x xs ih =>
    simp only [sortProfiles, List.foldr_cons]
    rw [mem_insertProfile, List.mem_cons]
    rw [show xs.foldr insertProfile [] = sortProfiles xs from rfl, ih]

/-- **C5.** The Reports and Members loaders are admin-gated: a caller
whose profile lacks the admin flag — in particular an unauthenticated
caller — gets the access-denied error and no data, while an admin gets
the month-filtered report list (respectively every stored profile,
ordered by creation time). -/
theorem c5_admin_gate (profiles : List Profile) (auth : Option String)
    (rows : List ReportRow) (year month : Nat) :
    (isAdmin profiles auth = false →
      reportsLoader profiles auth rows year month =
        .error "管理者以外はアクセスできません" ∧
      membersLoader profiles auth = .error "管理者以外はアクセスできません") ∧
    (isAdmin profiles auth = true →
      reportsLoader profiles auth rows year month =
        .ok (reportsQuery rows year month) ∧
      membersLoader profiles auth = .ok (sortProfiles profiles) ∧
      ∀ q, q ∈ sortProfiles profiles ↔ q ∈ profiles) ∧
    isAdmin profiles none = false := by
  refine ⟨fun h => ?_, fun h => ?_, rfl⟩
  · rw [reportsLoader, membersLoader, h]
    exact ⟨rfl, rfl⟩
  · rw [reportsLoader, membersLoader, h]
    exact ⟨rfl, rfl, fun q => mem_sortProfiles profiles q⟩

/-- Witness for C5: the gate evaluated for an unauthenticated caller and
for the admin, over a one-profile store. -/
theorem c5_admin_gate_witness :
    (reportsLoader [adminProfile] none [] 2024 11 =
        .error "管理者以外はアクセスできません" ∧
      membersLoader [adminProfile] none =
        .error "管理者以外はアクセスできません") ∧
    (reportsLoader [adminProfile] (some "a") [] 2024 11 =
        .ok (reportsQuery [] 2024 11) ∧
      membersLoader [adminProfile] (some "a") =
        .ok (sortProfiles [adminProfile]) ∧
      ∀ q, q ∈ sortProfiles [adminProfile] ↔ q ∈ [adminProfile]) :=
  ⟨(c5_admin_gate [adminProfile] none [] 2024 11).1 (by decide),
    (c5_admin_gate [adminProfile] (some "a") [] 2024 11).2.1 (by decide)⟩

/-- **C6.** When schema validation fails, the schedule action returns the
flattened field errors of the failing schema and the store is unchanged,
for the "create" intent as well as for the "report" intent. -/
theorem c6_validation_failure_is_pure (db : DB) (auth : Option String)
    (f : FormData) :
    (∀ e, f.intent = some "create" → parseScheduleForm f = .error e →
      scheduleAction db auth f = (db, .scheduleErrors e)) ∧
    (∀ e, f.intent = some "report" → parseReportForm f = .error e →
      scheduleAction db auth f = (db, .reportErrors e)) := by
  constructor
  · intro e hintent hparse
    simp [scheduleAction, hintent, hparse]
  · intro e hintent hparse
    simp [scheduleAction, hintent, hparse]

/-- Witness for C6: an all-empty creation form and a report form with an
empty description both produce their field errors and leave a store
unchanged. -/
theorem c6_validation_failure_is_pure_witness :
    scheduleAction dbWithReportS1 (some "u1") badCreateForm =
      (dbWithReportS1, .scheduleErrors badCreateErrors) ∧
    scheduleAction dbWithReportS1 (some "u1") badReportForm =
      (dbWithReportS1, .reportErrors badReportErrors) :=
  ⟨(c6_validation_failure_is_pure dbWithReportS1 (some "u1")
      badCreateForm).1 badCreateErrors rfl rfl,
    (c6_validation_failure_is_pure dbWithReportS1 (some "u1")
      badReportForm).2 badReportErrors rfl rfl⟩

/-- **C7.** The app-shell loader answers a session-less request with the
redirect to "/login" — its result type has no error alternative, so no
error can be surfaced — and only with a session present does it look up
the profile and expose the admin flag (an absent profile gives an absent
flag, still not an error). -/
theorem c7_shell_redirects_without_session (profiles : List Profile) :
    shellLoader profiles none = .redirect "/login" ∧
    ∀ uid, shellLoader profiles (some uid) =
      .page uid ((profiles.find? (fun p => p.id == uid)).map
        Profile.is_admin) :=
  ⟨rfl, fun _ => rfl⟩

/-- **C8.** An admin deletion removes exactly the profile rows whose id
equals the submitted id: the resulting profile list is the old one
filtered by that id, no outward call is made, and the schedules and
reports collections are untouched — every schedule and report present
before the deletion is still present (and queryable) afterwards. -/
theorem c8_delete_touches_only_profiles (db : DB) (auth : Option String)
    (f : FormData) (uid : String)
    (hadmin : isAdmin db.profiles auth = true)
    (hintent : f.intent = some "delete")
    (huid : f.user_id = some uid) :
    membersAction db auth f =
      ({ db with profiles := db.profiles.filter (fun p => !(p.id == uid)) },
        [], .success) ∧
    (membersAction db auth f).1.schedules = db.schedules ∧
    (membersAction db auth f).1.reports = db.reports ∧
    (∀ q : Profile, q ∈ (membersAction db auth f).1.profiles ↔
      q ∈ db.profiles ∧ q.id ≠ uid) := by
  have hact : membersAction db auth f =
      ({ db with profiles := db.profiles.filter (fun p => !(p.id == uid)) },
        [], .success) := by
    simp [membersAction, hadmin, hintent, huid]
  refine ⟨hact, ?_, ?_, ?_⟩
  · rw [hact]
  · rw [hact]
  · intro q
    rw [hact]
    simp [List.mem_filter]

/-- Witness for C8: deleting "u2" from a store with two profiles, one
schedule and one report. -/
theorem c8_delete_touches_only_profiles_witness :
    membersAction dbWithMemberU2 (some "a") deleteFormU2 =
      ({ dbWithMemberU2 with profiles :=
          dbWithMemberU2.profiles.filter (fun p => !(p.id == "u2")) },
        [], .success) ∧
    (membersAction dbWithMemberU2 (some "a") deleteFormU2).1.schedules =
      dbWithMemberU2.schedules ∧
    (membersAction dbWithMemberU2 (some "a") deleteFormU2).1.reports =
      dbWithMemberU2.reports ∧
    (∀ q : Profile, q ∈ (membersAction dbWithMemberU2 (some "a")
        deleteFormU2).1.profiles ↔ q ∈ dbWithMemberU2.profiles ∧
      q.id ≠ "u2") :=
  c8_delete_touches_only_profiles dbWithMemberU2 (some "a") deleteFormU2
    "u2" (by decide) rfl rfl

/-- The aggregation pass and the per-row rendering pass compute work
minutes by the same derivation. -/
theorem aggWorkMinutes_eq_rowWorkMinutes (r : ReportRow) :
    aggWorkMinutes r = rowWorkMinutes r := rfl

/-- One reduce step of `reportsByUser` keeps every group total equal to
the sum of the per-row work minutes of its reports. -/
theorem updateGroup_total_invariant (acc : List (String × UserGroup))
    (uid name : String) (r : ReportRow)
    (h : ∀ kg ∈ acc, kg.2.totalWorkMinutes =
      (kg.2.reports.map rowWorkMinutes).sum) :
    ∀ kg ∈ updateGroup acc uid name r, kg.2.totalWorkMinutes =
      (kg.2.reports.map rowWorkMinutes).sum := by
  induction acc with
  | nil =>
    intro kg hkg
    simp only [updateGroup, List.mem_singleton] at hkg
    subst hkg
    simp [aggWorkMinutes_eq_rowWorkMinutes]
  | cons hd tl ih =>
    obtain ⟨k, g⟩ := hd
    intro kg hkg
    simp only [updateGroup] at hkg
    split at hkg
    · rcases List.mem_cons.mp hkg with hkg | hkg
      · subst hkg
        have hg := h (k, g) (List.mem_cons_self _ _)
        simp only at hg
        simp [hg, aggWorkMinutes_eq_rowWorkMinutes]
      · exact h kg (List.mem_cons_of_mem _ hkg)
    · rcases List.mem_cons.mp hkg with hkg | hkg
      · subst hkg
        exact h (k, g) (List.mem_cons_self _ _)
      · exact ih (fun x hx => h x (List.mem_cons_of_mem _ hx)) kg hkg

/-- The reduce of `reportsByUser`, started from any accumulator whose
group totals already equal the sums of their per-row minutes, preserves
that equality. -/
theorem reportsByUser_fold_invariant (rows : List ReportRow)
    (acc : List (String × UserGroup))
    (h : ∀ kg ∈ acc, kg.2.totalWorkMinutes =
      (kg.2.reports.map rowWorkMinutes).sum) :
    ∀ kg ∈ rows.foldl
        (fun a r => updateGroup a r.user_id r.full_name r) acc,
      kg.2.totalWorkMinutes = (kg.2.reports.map rowWorkMinutes).sum := by
  induction rows generalizing acc with
  | nil => simpa using h
  | cons r rs ih =>
    intro kg hkg
    rw [List.foldl_cons] at hkg
    exact ih (updateGroup acc r.user_id r.full_name r)
      (updateGroup_total_invariant acc r.user_id r.full_name r h) kg hkg

/-- **C9.** The per-row work duration and the per-report contribution to
a user total are the same derivation — `differenceInMinutes(end, start)`
minus `break_time` — so for every fetched row list, each user group of
`reportsByUser` has its displayed total equal to the sum of the displayed
per-row minutes of its reports. -/
theorem c9_group_total_is_sum_of_rows (rows : List ReportRow)
    (uid : String) (g : UserGroup)
    (h : (uid, g) ∈ reportsByUser rows) :
    g.totalWorkMinutes = (g.reports.map rowWorkMinutes).sum ∧
    ∀ r, aggWorkMinutes r = rowWorkMinutes r :=
  ⟨reportsByUser_fold_invariant rows [] (by simp) (uid, g) h,
    fun _ => rfl⟩

/-- Witness for C9: the spec example group of 570 total minutes. -/
theorem c9_group_total_is_sum_of_rows_witness :
    (UserGroup.mk "Yamada" [exReport1, exReport2] 570).totalWorkMinutes =
      (([exReport1, exReport2]).map rowWorkMinutes).sum ∧
    ∀ r, aggWorkMinutes r = rowWorkMinutes r :=
  c9_group_total_is_sum_of_rows [exReport1, exReport2] "u1"
    (UserGroup.mk "Yamada" [exReport1, exReport2] 570) (by decide)

/-- **C10.** A schedule submission whose intent is neither "create" nor
"report" falls through both write branches: the store is unchanged and
the action answers success; likewise an admin members submission whose
intent is neither "invite" nor "delete" makes no outward call, changes
nothing and answers success. -/
theorem c10_unknown_intent_is_noop (db : DB) (auth : Option String)
    (f : FormData) :
    (f.intent ≠ some "create" → f.intent ≠ some "report" →
      scheduleAction db auth f = (db, .success)) ∧
    (isAdmin db.profiles auth = true →
      f.intent ≠ some "invite" → f.intent ≠ some "delete" →
      membersAction db auth f = (db, [], .success)) := by
  constructor
  · intro hc hr
    have hc2 : (f.intent == some "create") = false :=
      beq_eq_false_iff_ne.mpr hc
    have hr2 : (f.intent == some "report") = false :=
      beq_eq_false_iff_ne.mpr hr
    simp [scheduleAction, hc2, hr2]
  · intro hadmin hi hd
    have hi2 : (f.intent == some "invite") = false :=
      beq_eq_false_iff_ne.mpr hi
    have hd2 : (f.intent == some "delete") = false :=
      beq_eq_false_iff_ne.mpr hd
    simp [membersAction, hadmin, hi2, hd2]

/-- Witness for C10: the intent "noop" evaluated against both actions
over the two-profile store, by its admin. -/
theorem c10_unknown_intent_is_noop_witness :
    scheduleAction dbWithMemberU2 (some "a") bogusIntentForm =
      (dbWithMemberU2, .success) ∧
    membersAction dbWithMemberU2 (some "a") bogusIntentForm =
      (dbWithMemberU2, [], .success) :=
  ⟨(c10_unknown_intent_is_noop dbWithMemberU2 (some "a")
      bogusIntentForm).1 (by decide) (by decide),
    (c10_unknown_intent_is_noop dbWithMemberU2 (some "a")
      bogusIntentForm).2 (by decide) (by decide) (by decide)⟩

end OfficeSchedule
